import Mathlib

/-!
Shallow embedding of the core of jupyterlab_git/git.py (the Git façade that
drives the git executable and parses its output) together with proofs about
the behaviour of its argument validation, its output parsers and its
credential-entry protocol.  Subprocess execution is modelled by explicit
oracle functions passed to each operation; Python exceptions are modelled
with Except.  Python string operations are re-implemented structurally over
character lists so that every definition evaluates inside the kernel.
-/

namespace JupyterlabGit

/-! ### Python string primitives -/

/-- Python str.strip() on a character list. -/
def pyStripL (cs : List Char) : List Char :=
  ((cs.dropWhile Char.isWhitespace).reverse.dropWhile Char.isWhitespace).reverse

/-- Python str.strip(): remove leading and trailing whitespace. -/
def pyStrip (s : String) : String := String.mk (pyStripL s.toList)

/-- Helper for pySplit: accumulate the current word (reversed) while
scanning. -/
def pySplitAux : List Char → List Char → List String
  | [], acc => if acc.isEmpty then [] else [String.mk acc.reverse]
  | c :: cs, acc =>
    if c.isWhitespace then
      if acc.isEmpty then pySplitAux cs [] else String.mk acc.reverse :: pySplitAux cs []
    else pySplitAux cs (c :: acc)

/-- Python str.split() with no separator: split on whitespace runs, dropping
empty pieces. -/
def pySplit (s : String) : List String := pySplitAux s.toList []

/-- Helper for pySplitOn: fuel-driven scan; the fuel is an upper bound on the
number of characters consumed (the input length suffices) and exists only to
make the recursion structural. -/
def pySplitOnAux (sep : List Char) : Nat → List Char → List Char → List (List Char)
  | _, [], acc => [acc.reverse]
  | 0, cs, acc => [acc.reverse ++ cs]
  | fuel + 1, c :: cs, acc =>
    if sep.isPrefixOf (c :: cs) then
      acc.reverse :: pySplitOnAux sep fuel (List.drop sep.length (c :: cs)) []
    else
      pySplitOnAux sep fuel cs (c :: acc)

/-- Python str.split(sep) for a non-empty separator (Python raises on an
empty separator, which never occurs in this code base). -/
def pySplitOn (s sep : String) : List String :=
  (pySplitOnAux sep.toList s.toList.length s.toList []).map (fun cs => String.mk cs)

/-- Python l.split("=", maxsplit=1): the text before the first "=" and the
text after it, or none when no "=" occurs. -/
def pySplitEq1 (s : String) : Option (String × String) :=
  match s.toList.span (fun c => c ≠ '=') with
  | (_, []) => none
  | (before, _ :: after) => some (String.mk before, String.mk after)

/-- Python str.split(maxsplit=2) with no separator: at most two whitespace
splits; the third piece keeps its internal whitespace (leading whitespace
stripped), exactly as Python does. -/
def pySplitMax2 (s : String) : List String :=
  let cs := s.toList.dropWhile Char.isWhitespace
  if cs.isEmpty then []
  else
    let t1 := cs.takeWhile (fun c => !c.isWhitespace)
    let r1 := (cs.dropWhile (fun c => !c.isWhitespace)).dropWhile Char.isWhitespace
    if r1.isEmpty then [String.mk t1]
    else
      let t2 := r1.takeWhile (fun c => !c.isWhitespace)
      let r2 := (r1.dropWhile (fun c => !c.isWhitespace)).dropWhile Char.isWhitespace
      if r2.isEmpty then [String.mk t1, String.mk t2]
      else [String.mk t1, String.mk t2, String.mk r2]

/-- Python str.isdigit() restricted to ASCII: non-empty and all digits. -/
def pyIsDigit (s : String) : Bool := !s.isEmpty && s.toList.all Char.isDigit

/-- Python str.lower() restricted to ASCII. -/
def pyLower (s : String) : String := String.mk (s.toList.map Char.toLower)

/-- Substring occurrence on character lists (needle occurs contiguously). -/
def listIsInfixOf (needle : List Char) : List Char → Bool
  | [] => needle.isEmpty
  | c :: cs => needle.isPrefixOf (c :: cs) || listIsInfixOf needle cs

/-- Python substring test a in b (for non-empty a). -/
def pyInStr (needle hay : String) : Bool := listIsInfixOf needle.toList hay.toList

/-- Python str.startswith for a single-character prefix. -/
def pyStartsWith (s : String) (c : Char) : Bool :=
  match s.toList with
  | [] => false
  | c0 :: _ => c0 = c

/-- Python str.endswith for a single-character suffix. -/
def pyEndsWith (s : String) (c : Char) : Bool :=
  match s.toList.reverse with
  | [] => false
  | c0 :: _ => c0 = c

/-- Python s[n:] (drop the first n characters). -/
def pyDrop (s : String) (n : Nat) : String := String.mk (s.toList.drop n)

/-- Python s[:-1] (drop the last character). -/
def pyDropLast (s : String) : String := String.mk (s.toList.dropLast)

/-- Python truthiness of an optional string argument (None and "" are falsy). -/
def pyTruthy : Option String → Bool
  | none => false
  | some s => !s.toList.isEmpty

/-! ### changed_files (claims C1, C10) -/

/-- tornado.web.HTTPError as raised by the façade (status code and message). -/
structure HTTPErrorM where
  status : Nat
  msg : String
deriving Repr, DecidableEq

/-- Response dictionary returned by Git.changed_files. -/
structure ChangedFilesResponse where
  code : Int
  files : Option (List String)
  message : Option String
deriving Repr, DecidableEq

/-- Argument validation and command construction of Git.changed_files
(git.py lines 143-153): single_commit takes the first branch, otherwise a
truthy (base, remote) pair selects a diff command, otherwise HTTPError 400
is raised before any subprocess work. -/
def changed_files_cmd (base remote single_commit : Option String) :
    Except HTTPErrorM (List String) :=
  if pyTruthy single_commit then
    Except.ok ["git", "diff", (single_commit.getD "") ++ "^!", "--name-only"]
  else if pyTruthy base && pyTruthy remote then
    (if base.getD "" = "WORKING" then
      Except.ok ["git", "diff", remote.getD "", "--name-only"]
    else if base.getD "" = "INDEX" then
      Except.ok ["git", "diff", "--staged", remote.getD "", "--name-only"]
    else
      Except.ok ["git", "diff", base.getD "", remote.getD "", "--name-only"])
  else
    Except.error ⟨400, "Either single_commit or (base and remote) must be provided"⟩

/-- Git.changed_files (git.py lines 124-169).  The subprocess
(subprocess.check_output) is modelled by the oracle run, returning the exit
code and the decoded combined output; a non-zero exit corresponds to
CalledProcessError, caught and turned into an error envelope. -/
def changed_files (base remote single_commit : Option String)
    (run : List String → Int × String) : Except HTTPErrorM ChangedFilesResponse :=
  match changed_files_cmd base remote single_commit with
  | Except.error e => Except.error e
  | Except.ok cmd =>
    let r := run cmd
    if r.1 = 0 then
      Except.ok { code := 0, files := some (pySplitOn (pyStrip r.2) "\n"), message := none }
    else
      Except.ok { code := r.1, files := none, message := some r.2 }

/-- Claim C1 (counterexample): calling changed_files_cmd with both
single_commit and the (base, remote) pair supplied does not fail; the
single-commit diff command is constructed, so the claim that this
combination is rejected as a caller error is false. -/
theorem changed_files_both_supplied_not_error :
    changed_files_cmd (some "a") (some "b") (some "c") =
      Except.ok ["git", "diff", "c^!", "--name-only"] := rfl

/-- Claim C1 (amended): when neither single_commit nor a truthy
(base, remote) pair is supplied, changed_files fails with HTTP 400 no matter
what the subprocess oracle would do (so no subprocess result is consulted);
when single_commit is supplied (even together with base and remote) the
single-commit diff command is constructed, single_commit taking precedence. -/
theorem changed_files_contract :
    (∀ b r sc run, pyTruthy sc = false → (pyTruthy b && pyTruthy r) = false →
      changed_files b r sc run =
        Except.error ⟨400, "Either single_commit or (base and remote) must be provided"⟩) ∧
    (∀ b r (s : String), s ≠ "" →
      changed_files_cmd b r (some s) =
        Except.ok ["git", "diff", s ++ "^!", "--name-only"]) := by
  constructor
  · intro b r sc run h1 h2
    simp [changed_files, changed_files_cmd, h1, h2]
  · intro b r s h
    have hs : pyTruthy (some s) = true := by
      cases s with
      | mk data =>
        cases data with
        | nil => exact absurd rfl h
        | cons c cs => rfl
    simp [changed_files_cmd, hs]

/-- Witness for the amended claim C1 at concrete inputs. -/
theorem changed_files_contract_witness :
    changed_files none none none (fun _ => (0, "")) =
      Except.error ⟨400, "Either single_commit or (base and remote) must be provided"⟩ ∧
    changed_files_cmd none none (some "abc") =
      Except.ok ["git", "diff", "abc^!", "--name-only"] :=
  ⟨changed_files_contract.1 none none none (fun _ => (0, "")) rfl rfl,
   changed_files_contract.2 none none "abc" (by decide)⟩

/-- Claim C10: when the argument combination is valid and the subprocess
succeeds with empty output, the files field is the one-element list
containing the empty string (never the empty list), and the code is 0. -/
theorem changed_files_empty_output (b r sc : Option String) (cmd : List String)
    (run : List String → Int × String)
    (h : changed_files_cmd b r sc = Except.ok cmd) (h0 : run cmd = (0, "")) :
    changed_files b r sc run =
      Except.ok { code := 0, files := some [""], message := none } ∧
    ([""] : List String) ≠ [] := by
  refine ⟨?_, by simp⟩
  simp [changed_files, h, h0]
  decide

/-- Witness for claim C10 at a concrete input. -/
theorem changed_files_empty_output_witness :
    changed_files none none (some "c") (fun _ => (0, "")) =
      Except.ok { code := 0, files := some [""], message := none } ∧
    ([""] : List String) ≠ [] :=
  changed_files_empty_output none none (some "c")
    ["git", "diff", "c^!", "--name-only"] (fun _ => (0, "")) rfl rfl

/-! ### GitAuthInputWrapper and clone with credentials (claim C2) -/

/-- A credential prompt emitted by the child process on the pseudo-terminal:
either a prompt matching the pattern Username for .*: or one matching
Password for .*: (the only two patterns GitAuthInputWrapper.communicate
waits for). -/
inductive PromptR where
  | username
  | password
deriving Repr, DecidableEq

/-- Mock of the pexpect-spawned child process: the sequence of credential
prompts it presents, the transcript text available before end-of-stream
(p.before), and the exit status the process finally reports. -/
structure PtyProcess where
  prompts : List PromptR
  transcript : String
  exitStatus : Int
deriving Repr, DecidableEq

/-- GitAuthInputWrapper.communicate (git.py lines 32-64) as a function of
the mock process: returns (transcript, returncode, lines sent on the
pseudo-terminal in order).  The first prompt decides the branch: a username
prompt leads to sending the username and then waiting for a password prompt;
a password prompt leads to sending only the password.  If end-of-stream
arrives before an expected prompt, the pexpect EOF handler returns the
partial transcript with the process exit status and nothing further is
sent. -/
def communicate (proc : PtyProcess) (username password : String) :
    String × Int × List String :=
  match proc.prompts with
  | [] => (proc.transcript, proc.exitStatus, [])
  | PromptR.username :: rest =>
    if rest.contains PromptR.password then
      (proc.transcript, proc.exitStatus, [username, password])
    else
      (proc.transcript, proc.exitStatus, [username])
  | PromptR.password :: _ =>
    (proc.transcript, proc.exitStatus, [password])

/-- Response dictionary of Git.clone / Git.pull / Git.push. -/
structure CloneResponse where
  code : Int
  message : Option String
deriving Repr, DecidableEq

/-- Git.clone with auth (git.py lines 182-209): runs the auth wrapper and
builds the response envelope from its return code; the second component is
the list of credential lines sent.  The message field is set from the
stripped transcript only on a non-zero return code. -/
def clone_with_auth (proc : PtyProcess) (username password : String) :
    CloneResponse × List String :=
  let r := communicate proc username password
  ({ code := r.2.1,
     message := if r.2.1 ≠ 0 then some (pyStrip r.1) else none }, r.2.2)

/-- Claim C2: for any credentials and transcript, when the prompt sequence
is [username prompt, password prompt], the auth channel sends exactly the
two lines username then password in that order, and the clone envelope has
code 0 when the child process exits with status 0. -/
theorem clone_auth_protocol (u pw trans : String) (st : Int) :
    (communicate ⟨[PromptR.username, PromptR.password], trans, st⟩ u pw).2.2
      = [u, pw] ∧
    (clone_with_auth ⟨[PromptR.username, PromptR.password], trans, 0⟩ u pw).1.code
      = 0 := by
  constructor
  · rfl
  · rfl

/-! ### Git.log (claim C3) -/

/-- One parsed commit entry of Git.log. -/
structure Commit where
  commit : String
  author : String
  date : String
  commit_msg : String
  pre_commit : String
deriving Repr, DecidableEq, Inhabited

/-- The while loop of Git.log (git.py lines 262-285): strides of 4 over the
line array; each entry borrows its pre_commit from the line 4 positions
ahead when that line exists, and takes the empty string otherwise. -/
def log_loop (la : List String) (i : Nat) : List Commit :=
  if h : i < la.length then
    { commit := la.getD i "", author := la.getD (i + 1) "",
      date := la.getD (i + 2) "", commit_msg := la.getD (i + 3) "",
      pre_commit := if i + 4 < la.length then la.getD (i + 4) "" else "" }
      :: log_loop la (i + 4)
  else []
termination_by la.length - i
decreasing_by
  simp_wf
  omega

/-- The parsing part of Git.log on the decoded line array. -/
def log_parse (la : List String) : List Commit := log_loop la 0

/-- The entry that Git.log builds from the 4 lines starting at index b. -/
def logEntryAt (la : List String) (b : Nat) : Commit :=
  { commit := la.getD b "", author := la.getD (b + 1) "",
    date := la.getD (b + 2) "", commit_msg := la.getD (b + 3) "",
    pre_commit := if b + 4 < la.length then la.getD (b + 4) "" else "" }

theorem getD_drop (la : List String) (n i : Nat) (d : String) :
    (la.drop n).getD i d = la.getD (n + i) d := by
  simp [List.getD_eq_getElem?_getD, List.getElem?_drop]

theorem logEntryAt_drop (la : List String) (b : Nat) :
    logEntryAt (la.drop 4) b = logEntryAt la (4 + b) := by
  have hlen : (la.drop 4).length = la.length - 4 := by simp
  have hpre : (if b + 4 < (la.drop 4).length then (la.drop 4).getD (b + 4) "" else "")
      = (if 4 + b + 4 < la.length then la.getD (4 + b + 4) "" else "") := by
    by_cases hb : b + 4 < (la.drop 4).length
    · have hb2 : 4 + b + 4 < la.length := by omega
      rw [if_pos hb, if_pos hb2, getD_drop]
      rfl
    · have hb2 : ¬ (4 + b + 4 < la.length) := by omega
      rw [if_neg hb, if_neg hb2]
  unfold logEntryAt
  rw [hpre]
  simp only [getD_drop]
  rfl

theorem log_loop_shift (la : List String) (i : Nat) :
    log_loop la (i + 4) = log_loop (la.drop 4) i := by
  have main : ∀ n i, la.length - i ≤ n →
      log_loop la (i + 4) = log_loop (la.drop 4) i := by
    intro n
    induction n with
    | zero =>
      intro i hi
      rw [log_loop.eq_def la (i + 4), log_loop.eq_def (la.drop 4) i]
      have h1 : ¬ (i + 4 < la.length) := by omega
      have h2 : ¬ (i < (la.drop 4).length) := by
        simp only [List.length_drop]
        omega
      rw [dif_neg h1, dif_neg h2]
    | succ n ihn =>
      intro i hi
      rw [log_loop.eq_def la (i + 4), log_loop.eq_def (la.drop 4) i]
      by_cases hc : i + 4 < la.length
      · have hc' : i < (la.drop 4).length := by
          simp only [List.length_drop]
          omega
        rw [dif_pos hc, dif_pos hc']
        have hr : log_loop la (i + 4 + 4) = log_loop (la.drop 4) (i + 4) :=
          ihn (i + 4) (by omega)
        show logEntryAt la (i + 4) :: log_loop la (i + 4 + 4)
            = logEntryAt (la.drop 4) i :: log_loop (la.drop 4) (i + 4)
        rw [hr, logEntryAt_drop la i, Nat.add_comm 4 i]
      · have hc' : ¬ (i < (la.drop 4).length) := by
          simp only [List.length_drop]
          omega
        rw [dif_neg hc, dif_neg hc']
  exact main (la.length - i) i (Nat.le_refl _)

theorem log_parse_spec_aux : ∀ K la, la.length = 4 * K →
    (log_parse la).length = K ∧
    ∀ j, j < K → (log_parse la).getD j default = logEntryAt la (4 * j) := by
  intro K
  induction K with
  | zero =>
    intro la h
    have hla : la = [] := List.length_eq_zero.mp (by omega)
    subst hla
    refine ⟨?_, ?_⟩
    · unfold log_parse
      rw [log_loop.eq_def]
      simp
    · intro j hj
      exact absurd hj (Nat.not_lt_zero j)
  | succ K ih =>
    intro la h
    have h4 : 0 < la.length := by omega
    have hstep : log_parse la = logEntryAt la 0 :: log_parse (la.drop 4) := by
      unfold log_parse
      rw [log_loop.eq_def la 0, dif_pos h4, log_loop_shift la 0]
      rfl
    have hd : (la.drop 4).length = 4 * K := by
      simp only [List.length_drop]
      omega
    obtain ⟨ihl, ihe⟩ := ih (la.drop 4) hd
    refine ⟨?_, ?_⟩
    · rw [hstep]
      simp [ihl]
    · intro j hj
      rw [hstep]
      cases j with
      | zero =>
        simp [List.getD_cons_zero]
      | succ j' =>
        rw [List.getD_cons_succ, ihe j' (by omega), logEntryAt_drop]
        congr 1
        omega

/-- Claim C3: when the log output encodes K commits as 4 lines each, log
returns exactly K entries in order (entry i's commit id is line 4i); for
i + 1 < K entry i's pre_commit equals entry (i+1)'s commit id, and the last
entry's pre_commit is the empty string. -/
theorem log_chain (la : List String) (K : Nat) (h : la.length = 4 * K) :
    (log_parse la).length = K ∧
    (∀ i, i < K → ((log_parse la).getD i default).commit = la.getD (4 * i) "") ∧
    (∀ i, i + 1 < K →
      ((log_parse la).getD i default).pre_commit
        = ((log_parse la).getD (i + 1) default).commit) ∧
    (∀ i, i + 1 = K → ((log_parse la).getD i default).pre_commit = "") := by
  obtain ⟨hl, he⟩ := log_parse_spec_aux K la h
  refine ⟨hl, ?_, ?_, ?_⟩
  · intro i hi
    rw [he i hi]
    rfl
  · intro i hi
    have hidx : 4 * (i + 1) = 4 * i + 4 := by omega
    rw [he i (by omega), he (i + 1) (by omega), hidx]
    have hc : 4 * i + 4 < la.length := by omega
    simp [logEntryAt, hc]
  · intro i hi
    rw [he i (by omega)]
    have hc : ¬ (4 * i + 4 < la.length) := by omega
    simp [logEntryAt, hc]

/-- Witness for claim C3 at a concrete two-commit log output. -/
theorem log_chain_witness :
    (log_parse ["c1", "a1", "d1", "s1", "c2", "a2", "d2", "s2"]).length = 2 :=
  (log_chain ["c1", "a1", "d1", "s1", "c2", "a2", "d2", "s2"] 2 rfl).1

/-! ### Git.detailed_log (claim C4) -/

/-- A value held in the note array of Git.detailed_log: the Python ints it
is initialised with, or the digit strings assigned from the summary line. -/
inductive NoteVal where
  | intv (n : Int)
  | strv (s : String)
deriving Repr, DecidableEq

/-- One per-file record built by Git.detailed_log. -/
structure ModifiedFile where
  modified_file_path : String
  modified_file_name : String
  insertion : String
  deletion : String
deriving Repr, DecidableEq

/-- Result of Git.detailed_log on a zero exit code. -/
structure DetailedLogRes where
  modified_file_note : String
  modified_files_count : NoteVal
  number_of_insertions : NoteVal
  number_of_deletions : NoteVal
  modified_files : List ModifiedFile
deriving Repr, DecidableEq

/-- The digit-collecting loop over the summary words (git.py lines
315-318): each digit word is written to note[count], and a fourth digit
word would raise IndexError. -/
def fillNote : List String → NoteVal × NoteVal × NoteVal → Nat →
    Except String (NoteVal × NoteVal × NoteVal)
  | [], note, _ => Except.ok note
  | w :: ws, (n0, n1, n2), count =>
    if pyIsDigit w then
      match count with
      | 0 => fillNote ws (NoteVal.strv w, n1, n2) 1
      | 1 => fillNote ws (n0, NoteVal.strv w, n2) 2
      | 2 => fillNote ws (n0, n1, NoteVal.strv w) 3
      | _ => Except.error "IndexError"
    else fillNote ws (n0, n1, n2) count

/-- The per-file loop of Git.detailed_log (git.py lines 319-330).  It
carries the Python variable length, which the loop body reassigns to the
number of slash components of the current path; a numstat line with fewer than
three whitespace-separated fields raises IndexError. -/
def fileLoop (la : List String) : List Nat → List ModifiedFile × Nat →
    Except String (List ModifiedFile × Nat)
  | [], acc => Except.ok acc
  | num :: rest, (res, _len) =>
    match pySplitMax2 (la.getD num "") with
    | [ins, del, path] =>
      let words := pySplitOn path "/"
      fileLoop la rest
        (res ++ [{ modified_file_path := path,
                   modified_file_name := words.getD (words.length - 1) "",
                   insertion := ins, deletion := del }], words.length)
    | _ => Except.error "IndexError"

/-- The parsing part of Git.detailed_log (git.py lines 302-345) on the
decoded line array.  The final swap of note[1] and note[2] happens exactly
when note[2] is still the int 0, the (reassigned) length variable exceeds
1, and a "-" occurs in the summary line. -/
def detailed_log_parse (la : List String) : Except String DetailedLogRes :=
  let length := la.length
  if length > 1 then
    let temp := la.getD (length - 1) ""
    let words := pySplit temp
    match fillNote words (NoteVal.intv 0, NoteVal.intv 0, NoteVal.intv 0) 0 with
    | Except.error e => Except.error e
    | Except.ok (n0, n1, n2) =>
      match fileLoop la (List.range' 1 (length / 2 - 1)) ([], length) with
      | Except.error e => Except.error e
      | Except.ok (result, length2) =>
        let doSwap := decide (n2 = NoteVal.intv 0) && decide (length2 > 1)
          && pyInStr "-" temp
        let pair := if doSwap then (n2, n1) else (n1, n2)
        Except.ok { modified_file_note := temp, modified_files_count := n0,
                    number_of_insertions := pair.1,
                    number_of_deletions := pair.2,
                    modified_files := result }
  else
    Except.ok { modified_file_note := "", modified_files_count := NoteVal.intv 0,
                number_of_insertions := NoteVal.intv 0,
                number_of_deletions := NoteVal.intv 0, modified_files := [] }

/-- Claim C4 (code evaluation): on a full footer the counts come out as the
claim says (insertions "5", deletions "2"); but on the deletions-only
footer "3 files changed, 2 deletions(-)" with a slash-free last numstat
path the swap-correction is skipped (the loop reassigned length to that
path's slash component count, 1), leaving insertions "2" and deletions 0,
contradicting the claim; with a slash in the last path the swap fires and
insertions 0 / deletions "2" are reported as the claim expects. -/
theorem detailed_log_swap_bug :
    (detailed_log_parse
        ["abc123 msg", "1\t0\ta/x.txt", "2\t1\tb/y.txt", "2\t1\tc/z.txt",
         " a/x.txt | 1 +", " b/y.txt | 3 +-", " c/z.txt | 3 +-",
         " 3 files changed, 5 insertions(+), 2 deletions(-)"]).map
      (fun r => (r.number_of_insertions, r.number_of_deletions))
      = Except.ok (NoteVal.strv "5", NoteVal.strv "2") ∧
    (detailed_log_parse
        ["abc123 msg", "0\t1\ta/x.txt", "0\t1\tb/y.txt", "0\t0\tc.txt",
         " a/x.txt | 1 -", " b/y.txt | 1 -", " c.txt | 0",
         " 3 files changed, 2 deletions(-)"]).map
      (fun r => (r.number_of_insertions, r.number_of_deletions))
      = Except.ok (NoteVal.strv "2", NoteVal.intv 0) ∧
    (detailed_log_parse
        ["abc123 msg", "0\t1\ta/x.txt", "0\t1\tb/y.txt", "0\t0\tc/z.txt",
         " a/x.txt | 1 -", " b/y.txt | 1 -", " c/z.txt | 0",
         " 3 files changed, 2 deletions(-)"]).map
      (fun r => (r.number_of_insertions, r.number_of_deletions))
      = Except.ok (NoteVal.intv 0, NoteVal.strv "2") := by
  refine ⟨?_, ?_, ?_⟩ <;> rfl

/-! ### Git.status (claim C5) -/

/-- Strip one leading and then one trailing double quote, exactly as
Git.status does (git.py lines 233-236). -/
def stripQuotes (s : String) : String :=
  let s1 := if pyStartsWith s '"' then pyDrop s 1 else s
  if pyEndsWith s1 '"' then pyDropLast s1 else s1

/-- The part Git.status takes from a rename remainder: the last
" -> "-separated segment (to0[len(to0) - 1], git.py lines 229-230). -/
def lastArrowSegment (s : String) : String :=
  let to0 := pySplitOn s " -> "
  to0.getD (to0.length - 1) ""

/-- One record of Git.status (the Python dict with keys x, y, to, from);
the two single-character state codes are modelled as characters. -/
structure StatusFile where
  x : Char
  y : Char
  to_path : String
  from_path : String
deriving Repr, DecidableEq, Inhabited

/-- Parse one line of git status --porcelain output (git.py lines
225-239): the remainder after the 3-character prefix is the path; only
lines whose first character is R are split on " -> " (taking the last
segment); surrounding quotes are stripped from the path.  Lines shorter
than 2 characters raise IndexError when the state codes are read. -/
def parseStatusLine (line : String) : Except String StatusFile :=
  if line.toList.length < 2 then Except.error "IndexError"
  else
    let from_path := pyDrop line 3
    let to1 := if line.toList.getD 0 ' ' = 'R' then lastArrowSegment (pyDrop line 3)
               else pyDrop line 3
    Except.ok { x := line.toList.getD 0 ' ', y := line.toList.getD 1 ' ',
                to_path := stripQuotes to1, from_path := from_path }

/-- The record parseStatusLine produces on a well-formed line. -/
def statusEntryOf (l : String) : StatusFile :=
  { x := l.toList.getD 0 ' ', y := l.toList.getD 1 ' ',
    to_path := stripQuotes (if l.toList.getD 0 ' ' = 'R'
      then lastArrowSegment (pyDrop l 3) else pyDrop l 3),
    from_path := pyDrop l 3 }

/-- The per-line loop of Git.status over the decoded line array. -/
def status_parse : List String → Except String (List StatusFile)
  | [] => Except.ok []
  | l :: ls =>
    match parseStatusLine l with
    | Except.error e => Except.error e
    | Except.ok f =>
      match status_parse ls with
      | Except.error e => Except.error e
      | Except.ok fs => Except.ok (f :: fs)

/-- Claim C5 (counterexample): the well-formed status line for an untracked
file literally named a -> b contains " -> ", yet its parsed path is the
whole remainder, not the quote-stripped text right of the arrow, because
Git.status only splits on " -> " when the first state code is R. -/
theorem status_arrow_counterexample :
    pyInStr " -> " "?? a -> b" = true ∧
    status_parse ["?? a -> b"]
      = Except.ok [{ x := '?', y := '?', to_path := "a -> b", from_path := "a -> b" }] ∧
    stripQuotes (lastArrowSegment "a -> b") = "b" ∧
    ("a -> b" : String) ≠ "b" := by
  refine ⟨rfl, rfl, rfl, by decide⟩

/-- Claim C5 (amended): on well-formed status output (every line at least 2
characters), status returns exactly one record per line, in order; a line
whose first state code is R yields a record whose path is the last " -> "
separated segment of the remainder after the 3-character prefix with
surrounding quotes stripped, and any other line takes the whole remainder,
quote-stripped. -/
theorem status_spec : ∀ lines : List String,
    (∀ l ∈ lines, 2 ≤ l.toList.length) →
    ∃ res, status_parse lines = Except.ok res ∧
      res.length = lines.length ∧
      ∀ i, i < lines.length →
        (res.getD i default).to_path =
          (if (lines.getD i "").toList.getD 0 ' ' = 'R' then
            stripQuotes (lastArrowSegment (pyDrop (lines.getD i "") 3))
          else
            stripQuotes (pyDrop (lines.getD i "") 3)) := by
  intro lines
  induction lines with
  | nil =>
    intro _
    exact ⟨[], rfl, rfl, fun i hi => absurd hi (Nat.not_lt_zero i)⟩
  | cons l ls ih =>
    intro h
    have hl : 2 ≤ l.toList.length := h l (by simp)
    have hls : ∀ x ∈ ls, 2 ≤ x.toList.length := fun x hx => h x (by simp [hx])
    obtain ⟨res', hres', hlen', hto'⟩ := ih hls
    have hnotlt : ¬ (l.toList.length < 2) := by omega
    have hp : parseStatusLine l = Except.ok (statusEntryOf l) := by
      unfold parseStatusLine
      rw [if_neg hnotlt]
      rfl
    refine ⟨statusEntryOf l :: res', ?_, ?_, ?_⟩
    · simp only [status_parse, hp, hres']
    · simp [hlen']
    · intro i hi
      cases i with
      | zero =>
        simp only [List.getD_cons_zero]
        show stripQuotes (if l.toList.getD 0 ' ' = 'R'
            then lastArrowSegment (pyDrop l 3) else pyDrop l 3) = _
        exact apply_ite stripQuotes _ _ _
      | succ i' =>
        simp only [List.getD_cons_succ]
        exact hto' i' (by simp at hi; omega)

/-- Witness for the amended claim C5 on a rename line and a modified
line. -/
theorem status_spec_witness :
    ∃ res, status_parse ["R  old.txt -> new.txt", "M  file.txt"] = Except.ok res ∧
      res.length = (["R  old.txt -> new.txt", "M  file.txt"] : List String).length ∧
      ∀ i, i < (["R  old.txt -> new.txt", "M  file.txt"] : List String).length →
        (res.getD i default).to_path =
          (if ((["R  old.txt -> new.txt", "M  file.txt"] : List String).getD i "").toList.getD 0 ' ' = 'R' then
            stripQuotes (lastArrowSegment
              (pyDrop ((["R  old.txt -> new.txt", "M  file.txt"] : List String).getD i "") 3))
          else
            stripQuotes
              (pyDrop ((["R  old.txt -> new.txt", "M  file.txt"] : List String).getD i "") 3)) :=
  status_spec ["R  old.txt -> new.txt", "M  file.txt"] (by decide)

/-! ### Git.config, read mode (claim C6) -/

/-- The allow-list of configuration options (git.py line 17). -/
def ALLOWED_OPTIONS : List String := ["user.name", "user.email"]

/-- Python dict membership test on the insertion-ordered association list
modelling the options dict. -/
def dictContains (d : List (String × String)) (k : String) : Bool :=
  d.any (fun kv => kv.1 == k)

/-- Python options[k] = v: overwrite in place, else append. -/
def dictSet (d : List (String × String)) (k v : String) :
    List (String × String) :=
  if dictContains d k then
    d.map (fun kv => if kv.1 == k then (k, v) else kv)
  else d ++ [(k, v)]

/-- Python options[k] += l: append to an existing entry; a missing key
raises KeyError. -/
def dictAppend (d : List (String × String)) (k l : String) :
    Except String (List (String × String)) :=
  if dictContains d k then
    Except.ok (d.map (fun kv => if kv.1 == k then (kv.1, kv.2 ++ l) else kv))
  else Except.error "KeyError"

/-- Python previous_key in ALLOWED_OPTIONS, where previous_key may be
None. -/
def pyInAllowed : Option String → Bool
  | some k => ALLOWED_OPTIONS.contains k
  | none => false

/-- The line loop of the read mode of Git.config (git.py lines 110-120):
a line starting with a double quote is appended to the previous allowed
key's value; a line containing "=" is split at the first "=", recorded as
previous_key, and stored only when the key is allowed; any other line is
ignored (only logged). -/
def configGetLoop : List String → List (String × String) → Option String →
    Except String (List (String × String))
  | [], options, _ => Except.ok options
  | l :: ls, options, previous_key =>
    if pyStartsWith l '"' && pyInAllowed previous_key then
      match dictAppend options (previous_key.getD "") l with
      | Except.error e => Except.error e
      | Except.ok o2 => configGetLoop ls o2 previous_key
    else
      match pySplitEq1 l with
      | some (key, v) =>
        if ALLOWED_OPTIONS.contains key then
          configGetLoop ls (dictSet options key v) (some key)
        else
          configGetLoop ls options (some key)
      | none => configGetLoop ls options previous_key

/-- The options mapping Git.config builds from the git config --list
output lines. -/
def config_get_options (lines : List String) :
    Except String (List (String × String)) :=
  configGetLoop lines [] none

/-- A line that assigns an allowed key (contains "=" and its key is on the
allow-list). -/
def isAllowedAssign (l : String) : Bool :=
  match pySplitEq1 l with
  | some (key, _) => ALLOWED_OPTIONS.contains key
  | none => false

theorem dictSet_keys (d : List (String × String)) (k v : String) :
    ∀ kv ∈ dictSet d k v, kv.1 = k ∨ ∃ kv', kv' ∈ d ∧ kv.1 = kv'.1 := by
  intro kv hkv
  unfold dictSet at hkv
  by_cases hc : dictContains d k = true
  · rw [if_pos hc] at hkv
    obtain ⟨kv', hkv', heq⟩ := List.mem_map.mp hkv
    by_cases h2 : (kv'.1 == k) = true
    · left
      rw [← heq]
      simp [h2]
    · right
      refine ⟨kv', hkv', ?_⟩
      rw [← heq]
      simp [h2]
  · rw [if_neg hc] at hkv
    rcases List.mem_append.mp hkv with h | h
    · right
      exact ⟨kv, h, rfl⟩
    · left
      simp at h
      rw [h]

theorem dictAppend_keys (d : List (String × String)) (k l : String)
    (o2 : List (String × String)) (h : dictAppend d k l = Except.ok o2) :
    ∀ kv ∈ o2, ∃ kv', kv' ∈ d ∧ kv.1 = kv'.1 := by
  intro kv hkv
  unfold dictAppend at h
  by_cases hc : dictContains d k = true
  · rw [if_pos hc] at h
    injection h with h
    subst h
    obtain ⟨kv', hkv', heq⟩ := List.mem_map.mp hkv
    refine ⟨kv', hkv', ?_⟩
    by_cases h2 : (kv'.1 == k) = true
    · rw [← heq]
      simp [h2]
    · rw [← heq]
      simp [h2]
  · rw [if_neg hc] at h
    simp at h

theorem configGetLoop_keys : ∀ (ls : List String) options pk d,
    (∀ kv ∈ options, kv.1 ∈ ALLOWED_OPTIONS) →
    configGetLoop ls options pk = Except.ok d →
    ∀ kv ∈ d, kv.1 ∈ ALLOWED_OPTIONS := by
  intro ls
  induction ls with
  | nil =>
    intro options pk d hinv h
    simp only [configGetLoop] at h
    injection h with h
    subst h
    exact hinv
  | cons l ls ih =>
    intro options pk d hinv h
    simp only [configGetLoop] at h
    by_cases hb : (pyStartsWith l '"' && pyInAllowed pk) = true
    · rw [if_pos hb] at h
      cases hda : dictAppend options (pk.getD "") l with
      | error e =>
        rw [hda] at h
        simp at h
      | ok o2 =>
        rw [hda] at h
        refine ih o2 pk d ?_ h
        intro kv hkv
        obtain ⟨kv', hkv', heq⟩ := dictAppend_keys options (pk.getD "") l o2 hda kv hkv
        rw [heq]
        exact hinv kv' hkv'
    · rw [if_neg hb] at h
      cases hsplit : pySplitEq1 l with
      | none =>
        rw [hsplit] at h
        exact ih options pk d hinv h
      | some kv0 =>
        obtain ⟨key, v⟩ := kv0
        rw [hsplit] at h
        have h2 : (if ALLOWED_OPTIONS.contains key then
            configGetLoop ls (dictSet options key v) (some key)
          else configGetLoop ls options (some key)) = Except.ok d := h
        clear h
        by_cases hk : ALLOWED_OPTIONS.contains key = true
        · rw [if_pos hk] at h2
          refine ih _ _ d ?_ h2
          intro kv hkv
          rcases dictSet_keys options key v kv hkv with hfst | ⟨kv', hkv', heq⟩
          · rw [hfst]
            simpa using hk
          · rw [heq]
            exact hinv kv' hkv'
        · rw [if_neg hk] at h2
          exact ih options _ d hinv h2

theorem configGetLoop_pk_irrel : ∀ (ls : List String) options pk pk',
    (∀ l ∈ ls, pyStartsWith l '"' = false) →
    configGetLoop ls options pk = configGetLoop ls options pk' := by
  intro ls
  induction ls with
  | nil =>
    intros
    rfl
  | cons l ls ih =>
    intro options pk pk' hnc
    have hl : pyStartsWith l '"' = false := hnc l (by simp)
    have hls : ∀ x ∈ ls, pyStartsWith x '"' = false :=
      fun x hx => hnc x (by simp [hx])
    simp only [configGetLoop, hl, Bool.false_and, Bool.false_eq_true,
      if_false]
    cases hsplit : pySplitEq1 l with
    | none => exact ih options pk pk' hls
    | some kv0 => rfl

theorem configGetLoop_filter : ∀ (ls : List String) options pk,
    (∀ l ∈ ls, pyStartsWith l '"' = false) →
    configGetLoop ls options pk
      = configGetLoop (ls.filter isAllowedAssign) options pk := by
  intro ls
  induction ls with
  | nil =>
    intros
    rfl
  | cons l ls ih =>
    intro options pk hnc
    have hl : pyStartsWith l '"' = false := hnc l (by simp)
    have hls : ∀ x ∈ ls, pyStartsWith x '"' = false :=
      fun x hx => hnc x (by simp [hx])
    have hlsf : ∀ x ∈ ls.filter isAllowedAssign, pyStartsWith x '"' = false :=
      fun x hx => hls x (List.mem_filter.mp hx).1
    by_cases ha : isAllowedAssign l = true
    · rw [List.filter_cons_of_pos ha]
      cases hsplit : pySplitEq1 l with
      | none =>
        rw [isAllowedAssign, hsplit] at ha
        simp at ha
      | some kv0 =>
        obtain ⟨key, v⟩ := kv0
        have hk : ALLOWED_OPTIONS.contains key = true := by
          simpa [isAllowedAssign, hsplit] using ha
        simp only [configGetLoop, hl, Bool.false_and, Bool.false_eq_true,
          if_false, hsplit, hk, if_true]
        exact ih _ _ hls
    · have ha' : isAllowedAssign l = false := by
        cases haa : isAllowedAssign l
        · rfl
        · exact absurd haa ha
      rw [List.filter_cons_of_neg (by simp [ha'])]
      cases hsplit : pySplitEq1 l with
      | none =>
        simp only [configGetLoop, hl, Bool.false_and, Bool.false_eq_true,
          if_false, hsplit]
        exact ih options pk hls
      | some kv0 =>
        obtain ⟨key, v⟩ := kv0
        have hk : ALLOWED_OPTIONS.contains key = false := by
          simpa [isAllowedAssign, hsplit] using ha'
        simp only [configGetLoop, hl, Bool.false_and, Bool.false_eq_true,
          if_false, hsplit, hk]
        rw [ih options (some key) hls]
        exact configGetLoop_pk_irrel (ls.filter isAllowedAssign) options
          (some key) pk hlsf

/-- Claim C6 (counterexample): inserting the single non-allowed-key line
foo=bar between an allowed key line and its continuation line changes the
allowed key's value, so listings differing only in a non-allowed key's line
can produce different option mappings. -/
theorem config_continuation_counterexample :
    config_get_options ["user.name=a", "\"c"]
      = Except.ok [("user.name", "a\"c")] ∧
    config_get_options ["user.name=a", "foo=bar", "\"c"]
      = Except.ok [("user.name", "a")] ∧
    config_get_options ["user.name=a", "\"c"]
      ≠ config_get_options ["user.name=a", "foo=bar", "\"c"] := by
  have h1 : config_get_options ["user.name=a", "\"c"]
      = Except.ok [("user.name", "a\"c")] := rfl
  have h2 : config_get_options ["user.name=a", "foo=bar", "\"c"]
      = Except.ok [("user.name", "a")] := rfl
  refine ⟨h1, h2, ?_⟩
  rw [h1, h2]
  intro h
  injection h with h
  exact absurd h (by decide)

/-- Claim C6 (amended): the options mapping built by the read mode of
config contains only allowed keys; and two listings without
value-continuation lines (no line starting with a double quote) that agree
on their allowed-key assignment lines produce the same mapping.  (With
continuation lines the second half fails, see the counterexample.) -/
theorem config_allowlist :
    (∀ lines d, config_get_options lines = Except.ok d →
      ∀ kv ∈ d, kv.1 ∈ ALLOWED_OPTIONS) ∧
    (∀ A B : List String,
      (∀ l ∈ A, pyStartsWith l '"' = false) →
      (∀ l ∈ B, pyStartsWith l '"' = false) →
      A.filter isAllowedAssign = B.filter isAllowedAssign →
      config_get_options A = config_get_options B) := by
  constructor
  · intro lines d h
    exact configGetLoop_keys lines [] none d (by simp) h
  · intro A B hA hB hfilter
    unfold config_get_options
    rw [configGetLoop_filter A [] none hA, configGetLoop_filter B [] none hB,
      hfilter]

/-- Witness for the amended claim C6 at concrete listings differing only in
non-allowed lines. -/
theorem config_allowlist_witness :
    config_get_options ["user.name=a", "junk", "foo=x"]
      = config_get_options ["foo=y", "user.name=a"] :=
  config_allowlist.2 ["user.name=a", "junk", "foo=x"] ["foo=y", "user.name=a"]
    (by decide) (by decide) (by decide)

/-! ### Git.show (claim C7) -/

/-- A single-quote character as a string (kept out of string literals for
readability of the embedded format strings). -/
def sq : String := (Char.ofNat 39).toString

/-- The first recognised diagnostic template of Git.show (git.py line
923), before lower-casing. -/
def pathExistsOnDiskMsg (filename ref : String) : String :=
  "fatal: Path " ++ sq ++ filename ++ sq ++ " exists on disk, but not in "
    ++ sq ++ ref ++ sq

/-- The second recognised diagnostic template of Git.show (git.py line
924), before lower-casing. -/
def pathDoesNotExistMsg (filename : String) : String :=
  "fatal: Path " ++ sq ++ filename ++ sq
    ++ " does not exist (neither on disk nor in the index)"

/-- The lower-cased recognised error messages of Git.show (git.py lines
922-925). -/
def show_error_messages (filename ref : String) : List String :=
  [pyLower (pathExistsOnDiskMsg filename ref),
   pyLower (pathDoesNotExistMsg filename)]

/-- Git.show (git.py lines 909-935) as a function of the child process
result: exit 0 returns stdout; a non-zero exit whose lower-cased stderr
contains a recognised message returns the empty string; any other non-zero
exit raises HTTPError with the raw diagnostic embedded. -/
def showOp (filename ref : String) (returncode : Int) (output error : String) :
    Except String String :=
  let command := ["git", "show", ref ++ ":" ++ filename]
  let lower_error := pyLower error
  if returncode = 0 then Except.ok output
  else if (show_error_messages filename ref).any
      (fun msg => pyInStr msg lower_error) then Except.ok ""
  else Except.error ("Error [" ++ error ++ "] occurred while executing ["
    ++ String.intercalate " " command ++ "] command to retrieve plaintext diff.")

theorem listIsPrefixOf_self (cs : List Char) : cs.isPrefixOf cs = true := by
  induction cs with
  | nil => rfl
  | cons c t ih => simp [List.isPrefixOf, ih]

theorem listIsInfixOf_self (cs : List Char) : listIsInfixOf cs cs = true := by
  cases cs with
  | nil => rfl
  | cons c t => simp [listIsInfixOf, listIsPrefixOf_self]

theorem pyInStr_self (s : String) : pyInStr s s = true :=
  listIsInfixOf_self s.toList

/-- Claim C7: show returns the raw stdout on exit 0; on any non-zero exit
whose lower-cased diagnostic contains one of the two recognised messages
it returns the empty string instead of an error; and on a non-zero exit
whose lower-cased diagnostic contains no recognised message it raises an
error carrying the raw diagnostic text. -/
theorem show_spec (filename ref out err : String) (rc : Int) :
    (showOp filename ref 0 out err = Except.ok out) ∧
    (rc ≠ 0 →
      (show_error_messages filename ref).any
        (fun msg => pyInStr msg (pyLower err)) = true →
      showOp filename ref rc out err = Except.ok "") ∧
    (rc ≠ 0 →
      (show_error_messages filename ref).any
        (fun msg => pyInStr msg (pyLower err)) = false →
      showOp filename ref rc out err
        = Except.error ("Error [" ++ err ++ "] occurred while executing ["
            ++ String.intercalate " " ["git", "show", ref ++ ":" ++ filename]
            ++ "] command to retrieve plaintext diff.")) := by
  refine ⟨?_, ?_, ?_⟩
  · simp [showOp]
  · intro hrc hany
    simp [showOp, hrc, hany]
  · intro hrc hany
    simp [showOp, hrc, hany]

/-- Witness for claim C7 at concrete inputs: the recognised branch is
exercised with each of the two templates occurring strictly inside a
larger diagnostic (different case, surrounding text, trailing newline),
the way the containment test of git.py lines 922-929 sees them. -/
theorem show_spec_witness :
    showOp "f.txt" "HEAD" 0 "content" "boom" = Except.ok "content" ∧
    showOp "f.txt" "HEAD" 1 "content"
      (pathDoesNotExistMsg "f.txt" ++ "\n") = Except.ok "" ∧
    showOp "f.txt" "HEAD" 128 "content"
      ("warning: x\n" ++ pathExistsOnDiskMsg "f.txt" "HEAD" ++ "\n")
      = Except.ok "" ∧
    showOp "f.txt" "HEAD" 1 "content" "boom"
      = Except.error ("Error [" ++ "boom" ++ "] occurred while executing ["
          ++ String.intercalate " " ["git", "show", "HEAD" ++ ":" ++ "f.txt"]
          ++ "] command to retrieve plaintext diff.") :=
  ⟨(show_spec "f.txt" "HEAD" "content" "boom" 1).1,
   (show_spec "f.txt" "HEAD" "content" (pathDoesNotExistMsg "f.txt" ++ "\n")
      1).2.1 (by decide) (by decide),
   (show_spec "f.txt" "HEAD" "content"
      ("warning: x\n" ++ pathExistsOnDiskMsg "f.txt" "HEAD" ++ "\n")
      128).2.1 (by decide) (by decide),
   (show_spec "f.txt" "HEAD" "content" "boom" 1).2.2 (by decide) (by decide)⟩

/-! ### Git.config, set mode (claim C9) -/

/-- Result of one git config --add subprocess, as seen by Git.config. -/
structure ExecResult where
  returncode : Int
  out : String
  err : String

/-- Response dictionary of the set mode of Git.config. -/
structure ConfigSetResponse where
  code : Int
  command : Option String
  message : Option String
deriving Repr, DecidableEq

/-- The kwargs items whose key is on the allow-list, in order (the filter
on git.py line 85). -/
def allowedKwargs (kwargs : List (String × String)) : List (String × String) :=
  kwargs.filter (fun kv => ALLOWED_OPTIONS.contains kv.1)

/-- The option-setting loop of Git.config (git.py lines 84-96): one
git config --add per allowed key in order, collecting stripped stdout;
the first non-zero exit stops the loop and returns an envelope with that
command line and its stripped stderr.  The second component of the result
is the trace of subprocess commands invoked, in order. -/
def configSetLoop (exec : String → String → ExecResult) :
    List (String × String) → List String → List (List String) → Int →
    ConfigSetResponse × List (List String)
  | [], output, trace, code =>
    ({ code := code, command := none,
       message := some (pyStrip (String.intercalate "\n" output)) }, trace)
  | (k, v) :: rest, output, trace, _ =>
    let cmd := ["git", "config", "--add", k, v]
    let r := exec k v
    if r.returncode ≠ 0 then
      ({ code := r.returncode, command := some (String.intercalate " " cmd),
         message := some (pyStrip r.err) }, trace ++ [cmd])
    else
      configSetLoop exec rest (output ++ [pyStrip r.out]) (trace ++ [cmd])
        r.returncode

/-- The set mode of Git.config: response code starts at 1 and the loop
runs over the allowed kwargs. -/
def config_set (kwargs : List (String × String))
    (exec : String → String → ExecResult) :
    ConfigSetResponse × List (List String) :=
  configSetLoop exec (allowedKwargs kwargs) [] [] 1

theorem configSetLoop_fail : ∀ (l : List (String × String))
    (exec : String → String → ExecResult) (i : Nat) (output : List String)
    (trace : List (List String)) (code : Int),
    i < l.length →
    (exec (l.getD i ("", "")).1 (l.getD i ("", "")).2).returncode ≠ 0 →
    (∀ j, j < i → (exec (l.getD j ("", "")).1 (l.getD j ("", "")).2).returncode = 0) →
    configSetLoop exec l output trace code =
      ({ code := (exec (l.getD i ("", "")).1 (l.getD i ("", "")).2).returncode,
         command := some (String.intercalate " "
           ["git", "config", "--add", (l.getD i ("", "")).1, (l.getD i ("", "")).2]),
         message := some (pyStrip (exec (l.getD i ("", "")).1 (l.getD i ("", "")).2).err) },
       trace ++ (l.take (i + 1)).map
         (fun kv => ["git", "config", "--add", kv.1, kv.2])) := by
  intro l
  induction l with
  | nil =>
    intro exec i output trace code hi
    exact absurd hi (Nat.not_lt_zero i)
  | cons kv rest ih =>
    intro exec i output trace code hi hfail hok
    obtain ⟨k, v⟩ := kv
    cases i with
    | zero =>
      have h0 : (exec k v).returncode ≠ 0 := hfail
      simp only [configSetLoop]
      rw [if_pos h0]
      simp [List.getD_cons_zero]
    | succ i' =>
      have h0 : (exec k v).returncode = 0 := hok 0 (Nat.succ_pos i')
      simp only [configSetLoop]
      rw [if_neg (by simp [h0])]
      rw [ih exec i' (output ++ [pyStrip (exec k v).out])
        (trace ++ [["git", "config", "--add", k, v]]) (exec k v).returncode
        (by simpa using hi) (by simpa using hfail)
        (fun j hj => by simpa using hok (j + 1) (by omega))]
      simp [List.getD_cons_succ, List.take_succ_cons, List.append_assoc]

/-- Claim C9: when the i-th allowed key's set command is the first to exit
non-zero, config stops there: exactly the first i+1 commands are invoked in
order (the earlier, successful ones are not rolled back and nothing after
the failure is attempted), and the envelope carries the failing command
line and its stripped stderr with its exit code. -/
theorem config_set_first_failure (kwargs : List (String × String))
    (exec : String → String → ExecResult) (i : Nat)
    (hi : i < (allowedKwargs kwargs).length)
    (hfail : (exec ((allowedKwargs kwargs).getD i ("", "")).1
        ((allowedKwargs kwargs).getD i ("", "")).2).returncode ≠ 0)
    (hok : ∀ j, j < i → (exec ((allowedKwargs kwargs).getD j ("", "")).1
        ((allowedKwargs kwargs).getD j ("", "")).2).returncode = 0) :
    config_set kwargs exec =
      ({ code := (exec ((allowedKwargs kwargs).getD i ("", "")).1
            ((allowedKwargs kwargs).getD i ("", "")).2).returncode,
         command := some (String.intercalate " "
           ["git", "config", "--add", ((allowedKwargs kwargs).getD i ("", "")).1,
            ((allowedKwargs kwargs).getD i ("", "")).2]),
         message := some (pyStrip (exec ((allowedKwargs kwargs).getD i ("", "")).1
            ((allowedKwargs kwargs).getD i ("", "")).2).err) },
       ((allowedKwargs kwargs).take (i + 1)).map
         (fun kv => ["git", "config", "--add", kv.1, kv.2])) := by
  have h := configSetLoop_fail (allowedKwargs kwargs) exec i [] [] 1 hi hfail hok
  simpa [config_set] using h

/-- Witness for claim C9: the second allowed option fails; only the first
two commands run and the envelope reports the failing one. -/
theorem config_set_first_failure_witness :
    config_set
      [("user.name", "alice"), ("other", "x"), ("user.email", "bad"),
       ("user.email", "d")]
      (fun k v => if k == "user.email" && v == "bad" then ⟨1, "", " boom "⟩
        else ⟨0, "ok", ""⟩) =
      ({ code := 1, command := some "git config --add user.email bad",
         message := some "boom" },
       [["git", "config", "--add", "user.name", "alice"],
        ["git", "config", "--add", "user.email", "bad"]]) :=
  config_set_first_failure
    [("user.name", "alice"), ("other", "x"), ("user.email", "bad"),
     ("user.email", "d")]
    (fun k v => if k == "user.email" && v == "bad" then ⟨1, "", " boom "⟩
      else ⟨0, "ok", ""⟩)
    1 (by decide) (by decide)
    (fun j hj => by
      have hj0 : j = 0 := by omega
      subst hj0
      decide)

/-! ### Git.branch / Git.branch_heads / Git.branch_remotes (claim C8) -/

/-- One branch record of Git.branch_heads / Git.branch_remotes. -/
structure Branch where
  is_current_branch : Bool
  is_remote_branch : Bool
  name : String
  upstream : Option String
  top_commit : Option String
  tag : Option String
deriving Repr, DecidableEq

/-- Build a local branch record from the tab-separated fields of one
for-each-ref line (git.py lines 412-422); an unpack of anything other than
4 fields raises ValueError (caught into a code -1 envelope upstream).
bool(head.strip()) is nonemptiness after stripping; an empty upstream
becomes None. -/
def mkHeadBranch (fields : List String) : Except String Branch :=
  match fields with
  | [name, commit_sha, upstream_name, head] =>
    Except.ok
      { is_current_branch := !(pyStrip head).toList.isEmpty,
        is_remote_branch := false, name := name,
        upstream := if upstream_name.toList.isEmpty then none
          else some upstream_name,
        top_commit := some commit_sha, tag := none }
  | _ => Except.error "ValueError"

/-- Parse one local-ref line. -/
def parseHeadLine (l : String) : Except String Branch :=
  mkHeadBranch (pySplitOn l "\t")

/-- Whether a local-ref line carries the current-branch marker (nonempty
stripped HEAD field) and parses. -/
def lineMarksCurrent (l : String) : Bool :=
  match parseHeadLine l with
  | Except.ok b => b.is_current_branch
  | Except.error _ => false

/-- The line loop of Git.branch_heads (git.py lines 412-425): append each
record and remember the last one whose current flag is set. -/
def branchHeadsLoop : List String → List Branch → Option Branch →
    Except String (List Branch × Option Branch)
  | [], acc, cur => Except.ok (acc, cur)
  | l :: ls, acc, cur =>
    match parseHeadLine l with
    | Except.error e => Except.error e
    | Except.ok b =>
      branchHeadsLoop ls (acc ++ [b])
        (if b.is_current_branch then some b else cur)

/-- Git.branch_heads (git.py lines 408-442) on the decoded output lines:
when no parsed line was marked current (e.g. an empty repository with no
refs), a synthetic current entry is appended, named after
get_current_branch (passed here as fallbackName) with top_commit None. -/
def branch_heads_parse (lines : List String) (fallbackName : String) :
    Except String (List Branch × Branch) :=
  match branchHeadsLoop lines [] none with
  | Except.error e => Except.error e
  | Except.ok (results, some cur) => Except.ok (results, cur)
  | Except.ok (results, none) =>
    Except.ok (results ++
      [{ is_current_branch := true, is_remote_branch := false,
         name := fallbackName, upstream := none, top_commit := none,
         tag := none }],
      { is_current_branch := true, is_remote_branch := false,
        name := fallbackName, upstream := none, top_commit := none,
        tag := none })

/-- Build a remote branch record from the tab-separated fields of one
remote-ref line (git.py lines 474-482). -/
def mkRemoteBranch (fields : List String) : Except String Branch :=
  match fields with
  | [name, commit_sha] =>
    Except.ok
      { is_current_branch := false, is_remote_branch := true,
        name := name, upstream := none, top_commit := some commit_sha,
        tag := none }
  | _ => Except.error "ValueError"

/-- The line loop of Git.branch_remotes. -/
def branchRemotesLoop : List String → List Branch →
    Except String (List Branch)
  | [], acc => Except.ok acc
  | l :: ls, acc =>
    match mkRemoteBranch (pySplitOn l "\t") with
    | Except.error e => Except.error e
    | Except.ok b => branchRemotesLoop ls (acc ++ [b])

/-- Git.branch (git.py lines 377-392): local heads first, then remotes,
concatenated; the current branch comes from the local query. -/
def branch_parse (headLines remoteLines : List String)
    (fallbackName : String) : Except String (List Branch × Branch) :=
  match branch_heads_parse headLines fallbackName with
  | Except.error e => Except.error e
  | Except.ok (heads, cur) =>
    match branchRemotesLoop remoteLines [] with
    | Except.error e => Except.error e
    | Except.ok remotes => Except.ok (heads ++ remotes, cur)

/-- Number of local entries flagged as the current branch. -/
def countCurrentLocal (bs : List Branch) : Nat :=
  bs.countP (fun b => b.is_current_branch && !b.is_remote_branch)

theorem mkHeadBranch_remote (fields : List String) (b : Branch)
    (h : mkHeadBranch fields = Except.ok b) : b.is_remote_branch = false := by
  rcases fields with _ | ⟨n, _ | ⟨s, _ | ⟨u, _ | ⟨hd, _ | ⟨x, t⟩⟩⟩⟩⟩ <;>
    simp [mkHeadBranch] at h
  rw [← h]

theorem mkRemoteBranch_current (fields : List String) (b : Branch)
    (h : mkRemoteBranch fields = Except.ok b) :
    b.is_current_branch = false := by
  rcases fields with _ | ⟨n, _ | ⟨s, _ | ⟨x, t⟩⟩⟩ <;>
    simp [mkRemoteBranch] at h
  rw [← h]

theorem branchHeadsLoop_spec : ∀ (ls : List String) acc cur res c,
    branchHeadsLoop ls acc cur = Except.ok (res, c) →
    countCurrentLocal res
      = countCurrentLocal acc + ls.countP lineMarksCurrent ∧
    ((c = none) ↔ (cur = none ∧ ls.countP lineMarksCurrent = 0)) := by
  intro ls
  induction ls with
  | nil =>
    intro acc cur res c h
    simp only [branchHeadsLoop] at h
    injection h with h
    injection h with ha hb
    subst ha
    subst hb
    constructor
    · simp [List.countP_nil]
    · simp
  | cons l ls ih =>
    intro acc cur res c h
    simp only [branchHeadsLoop] at h
    cases hp : parseHeadLine l with
    | error e =>
      rw [hp] at h
      simp at h
    | ok b =>
      rw [hp] at h
      obtain ⟨hcount, hiff⟩ := ih _ _ _ _ h
      have hrm : b.is_remote_branch = false :=
        mkHeadBranch_remote (pySplitOn l "\t") b hp
      have hmark : lineMarksCurrent l = b.is_current_branch := by
        unfold lineMarksCurrent
        rw [hp]
      have happ : countCurrentLocal (acc ++ [b])
          = countCurrentLocal acc
            + (if b.is_current_branch then 1 else 0) := by
        unfold countCurrentLocal
        rw [List.countP_append]
        simp [List.countP_cons, hrm]
      constructor
      · rw [hcount, happ, List.countP_cons, hmark]
        by_cases hb : b.is_current_branch = true
        · simp [hb]
          omega
        · have hb' : b.is_current_branch = false := by
            cases hbb : b.is_current_branch
            · rfl
            · exact absurd hbb hb
          simp [hb']
      · rw [hiff, List.countP_cons, hmark]
        by_cases hb : b.is_current_branch = true
        · rw [hb]
          simp
        · have hb' : b.is_current_branch = false := by
            cases hbb : b.is_current_branch
            · rfl
            · exact absurd hbb hb
          rw [hb']
          simp

theorem branchRemotesLoop_count : ∀ (ls : List String) acc res,
    branchRemotesLoop ls acc = Except.ok res →
    countCurrentLocal res = countCurrentLocal acc := by
  intro ls
  induction ls with
  | nil =>
    intro acc res h
    simp only [branchRemotesLoop] at h
    injection h with h
    rw [h]
  | cons l ls ih =>
    intro acc res h
    simp only [branchRemotesLoop] at h
    cases hp : mkRemoteBranch (pySplitOn l "\t") with
    | error e =>
      rw [hp] at h
      simp at h
    | ok b =>
      rw [hp] at h
      have hcur : b.is_current_branch = false :=
        mkRemoteBranch_current (pySplitOn l "\t") b hp
      rw [ih _ _ h]
      unfold countCurrentLocal
      rw [List.countP_append]
      simp [hcur]

theorem branch_heads_current_count (lines : List String)
    (fallbackName : String) (res : List Branch) (cur : Branch)
    (h : branch_heads_parse lines fallbackName = Except.ok (res, cur))
    (hmark : lines.countP lineMarksCurrent ≤ 1) :
    countCurrentLocal res = 1 := by
  unfold branch_heads_parse at h
  cases hl : branchHeadsLoop lines [] none with
  | error e =>
    rw [hl] at h
    simp at h
  | ok rc =>
    obtain ⟨results, copt⟩ := rc
    obtain ⟨hcount, hiff⟩ := branchHeadsLoop_spec lines [] none results copt hl
    have hacc : countCurrentLocal ([] : List Branch) = 0 := rfl
    rw [hl] at h
    cases copt with
    | some cb =>
      have h2 : (Except.ok (results, cb) : Except String (List Branch × Branch)) = Except.ok (res, cur) := h
      injection h2 with h2
      injection h2 with ha hb
      subst ha
      have hne : ¬ ((some cb : Option Branch) = none) := by simp
      rw [hiff] at hne
      have hcp : lines.countP lineMarksCurrent = 1 := by
        by_cases hz : lines.countP lineMarksCurrent = 0
        · exact absurd ⟨rfl, hz⟩ hne
        · omega
      rw [hcount, hacc, hcp]
    | none =>
      have h2 : (Except.ok
          (results ++
            [{ is_current_branch := true, is_remote_branch := false,
               name := fallbackName, upstream := none, top_commit := none,
               tag := none }],
            ({ is_current_branch := true, is_remote_branch := false,
               name := fallbackName, upstream := none, top_commit := none,
               tag := none } : Branch))
          : Except String (List Branch × Branch)) = Except.ok (res, cur) := h
      injection h2 with h2
      injection h2 with ha hb
      subst ha
      have hzero : lines.countP lineMarksCurrent = 0 := (hiff.mp rfl).2
      have hres : countCurrentLocal results = 0 := by omega
      unfold countCurrentLocal at hres ⊢
      rw [List.countP_append, hres]
      rfl

/-- Claim C8: for any successful branch invocation on well-formed output
(at most one local-ref line carries the current marker), the concatenated
branch list contains exactly one local entry with is_current_branch true;
and on a repository with zero commits (empty local and remote listings) the
result is exactly one synthetic entry, current, with top_commit none. -/
theorem branch_current_unique (headLines remoteLines : List String)
    (fallbackName : String)
    (hmark : headLines.countP lineMarksCurrent ≤ 1) :
    (∀ res cur,
      branch_parse headLines remoteLines fallbackName = Except.ok (res, cur) →
      countCurrentLocal res = 1) ∧
    (branch_parse [] [] fallbackName =
      Except.ok
        ([{ is_current_branch := true, is_remote_branch := false,
            name := fallbackName, upstream := none, top_commit := none,
            tag := none }],
         { is_current_branch := true, is_remote_branch := false,
           name := fallbackName, upstream := none, top_commit := none,
           tag := none })) := by
  constructor
  · intro res cur h
    unfold branch_parse at h
    cases hh : branch_heads_parse headLines fallbackName with
    | error e =>
      rw [hh] at h
      simp at h
    | ok hc =>
      obtain ⟨heads, hcur⟩ := hc
      rw [hh] at h
      cases hr : branchRemotesLoop remoteLines [] with
      | error e =>
        rw [hr] at h
        simp at h
      | ok remotes =>
        rw [hr] at h
        have h2 : (Except.ok (heads ++ remotes, hcur) : Except String (List Branch × Branch))
            = Except.ok (res, cur) := h
        injection h2 with h2
        injection h2 with ha hb
        subst ha
        have hheads : countCurrentLocal heads = 1 :=
          branch_heads_current_count headLines fallbackName heads hcur hh hmark
        have hrem : countCurrentLocal remotes = 0 := by
          have := branchRemotesLoop_count remoteLines [] remotes hr
          simpa using this
        unfold countCurrentLocal at hheads hrem ⊢
        rw [List.countP_append, hheads, hrem]
  · rfl

/-- Witness for claim C8: one marked local line plus one remote line, and
the zero-commit case. -/
theorem branch_current_unique_witness :
    countCurrentLocal
      [{ is_current_branch := true, is_remote_branch := false,
         name := "main", upstream := none, top_commit := some "abc",
         tag := none },
       { is_current_branch := false, is_remote_branch := true,
         name := "origin/main", upstream := none, top_commit := some "abc",
         tag := none }] = 1 :=
  (branch_current_unique ["main\tabc\t\t*"] ["origin/main\tabc"] "main"
    (by decide)).1
    [{ is_current_branch := true, is_remote_branch := false,
       name := "main", upstream := none, top_commit := some "abc",
       tag := none },
     { is_current_branch := false, is_remote_branch := true,
       name := "origin/main", upstream := none, top_commit := some "abc",
       tag := none }]
    { is_current_branch := true, is_remote_branch := false,
      name := "main", upstream := none, top_commit := some "abc",
      tag := none }
    rfl

end JupyterlabGit
